import Mathlib

/-!
Shallow embedding of the weather data pipeline in
src/FirstDataMine/weather_core.py (with the duplicated single-file copy in
src/fetch.py and the driver in src/FirstDataMine/app_streamlit.py).

Modelling conventions:
* pandas cell values are rationals (`ℚ`); a missing value (NaN/NaT/None) is
  `Option.none`.
* instants are integers: seconds since the Unix epoch, UTC.  A timestamp
  carries an `aware` flag distinguishing timezone-aware from naive values.
* raw JSON / CSV tokens are the inductive `Raw`: a number, a string, a
  timestamp-shaped token (what `to_csv` writes for a datetime cell), or null.
* fallible pandas calls (`pd.DataFrame` on ragged dicts, `read_csv`,
  `resample().agg` with missing columns, `rolling` validation) are modelled
  with `Except String`; the string is the Python exception rendered as text.
-/

namespace WeatherMine

/- ## Rational arithmetic

The standard `ℚ` operations are `@[irreducible]` in this toolchain, which
blocks kernel evaluation of concrete runs.  The embedding therefore computes
with the following equivalent operations (the `_eq` bridge lemmas restate
each one as the standard operation, and are used by the symbolic proofs). -/

def qadd (a b : ℚ) : ℚ := mkRat (a.num * b.den + b.num * a.den) (a.den * b.den)

def qsub (a b : ℚ) : ℚ := mkRat (a.num * b.den - b.num * a.den) (a.den * b.den)

def qmul (a b : ℚ) : ℚ := mkRat (a.num * b.num) (a.den * b.den)

def qdiv (a b : ℚ) : ℚ := Rat.divInt (a.num * b.den) (a.den * b.num)

def qmin (a b : ℚ) : ℚ := if a ≤ b then a else b

def qmax (a b : ℚ) : ℚ := if a ≤ b then b else a

def qsum : List ℚ → ℚ
  | [] => 0
  | x :: xs => qadd x (qsum xs)

def zmin (a b : ℤ) : ℤ := if a ≤ b then a else b

def zmax (a b : ℤ) : ℤ := if a ≤ b then b else a

/-- Raw scalar token as it appears in the JSON payload or a CSV file.
`rtime` stands for a string that renders a datetime cell (offset suffix
present iff `aware`), as written by `DataFrame.to_csv` for datetime data. -/
inductive Raw where
  | rnum (q : ℚ)
  | rstr (s : String)
  | rtime (aware : Bool) (t : ℤ)
  | rnull
deriving DecidableEq

/-- A numeric pandas cell: a rational or missing (NaN). -/
abbrev Cell := Option ℚ

/-- A typed pandas column: float64, object/string, or datetime64 (with or
without a UTC timezone annotation).  Datetime cells are seconds since epoch,
`none` is NaT. -/
inductive Col where
  | numeric (vals : List Cell)
  | text (vals : List (Option String))
  | dt (aware : Bool) (vals : List (Option ℤ))
deriving DecidableEq

/-- A pandas index: the default positional RangeIndex, or a DatetimeIndex
(named "time" throughout this pipeline) whose entries may be NaT. -/
inductive FIndex where
  | range (n : ℕ)
  | time (aware : Bool) (ts : List (Option ℤ))
deriving DecidableEq

/-- A pandas DataFrame: an index plus named, typed columns in order. -/
structure Frame where
  idx : FIndex
  cols : List (String × Col)
deriving DecidableEq

/-- Number of rows of a frame, read off its index. -/
def FIndex.len : FIndex → ℕ
  | .range n => n
  | .time _ ts => ts.length

def numRows (f : Frame) : ℕ := f.idx.len

/-- Length of a column. -/
def Col.len : Col → ℕ
  | .numeric vs => vs.length
  | .text vs => vs.length
  | .dt _ vs => vs.length

/-- `pd.DataFrame()`: no columns, empty positional index. -/
def emptyFrame : Frame := ⟨.range 0, []⟩

/-- `df.empty`: true when either axis has length zero. -/
def Frame.isEmptyF (f : Frame) : Bool := numRows f = 0 || f.cols.isEmpty

/-- Well-formed frame: every column has exactly one cell per index entry. -/
def Frame.WF (f : Frame) : Prop := ∀ c ∈ f.cols, c.2.len = numRows f

/- ## Scalar parsers

`pd.to_numeric(..., errors="coerce")` and `pd.to_datetime(..., utc=True,
errors="coerce")` parse string tokens.  We implement plain decimal numbers
and ISO-8601 timestamps (date, optional time, optional `Z`/`±HH:MM` offset);
exotic formats accepted by pandas (exponents, month names, ...) do not occur
in this pipeline's data and are treated as unparseable. -/

/-- Value of a decimal digit, `none` for any other character. -/
def digitVal (c : Char) : Option ℕ :=
  if '0' ≤ c ∧ c ≤ '9' then some (c.toNat - 48) else none

/-- Accumulate decimal digits left to right. -/
def parseDigitsAux : List Char → ℕ → Option ℕ
  | [], acc => some acc
  | c :: cs, acc =>
      match digitVal c with
      | some d => parseDigitsAux cs (acc * 10 + d)
      | none => none

/-- Parse a non-empty all-digit character list as a natural number. -/
def parseDigits : List Char → Option ℕ
  | [] => none
  | cs => parseDigitsAux cs 0

/-- Parse the fractional digits after the decimal point, as a rational. -/
def parseFracDigits : List Char → Option ℚ
  | cs => (parseDigits cs).map (fun n => qdiv (n : ℚ) (((10 : ℕ) ^ cs.length : ℕ) : ℚ))

/-- Strip leading and trailing spaces from a character list. -/
def trimChars (cs : List Char) : List Char :=
  ((cs.dropWhile (fun c => c = ' ')).reverse.dropWhile (fun c => c = ' ')).reverse

/-- Unsigned decimal number: integer digits and/or fractional digits around
an optional decimal point. -/
def parseNumericBody (cs : List Char) : Option ℚ :=
  let ip := cs.takeWhile (fun c => c ≠ '.')
  let rest := cs.dropWhile (fun c => c ≠ '.')
  match rest with
  | [] => (parseDigits ip).map (fun n => (n : ℚ))
  | _ :: fp =>
      match ip, fp with
      | [], [] => none
      | [], fp => parseFracDigits fp
      | ip, [] => (parseDigits ip).map (fun n => (n : ℚ))
      | ip, fp =>
          match parseDigits ip, parseFracDigits fp with
          | some n, some q => some (qadd (n : ℚ) q)
          | _, _ => none

/-- `pd.to_numeric` on one string token: optional sign, then integer and/or
fractional decimal digits.  Whitespace is stripped first as pandas does. -/
def parseNumeric (s : String) : Option ℚ :=
  match trimChars s.toList with
  | [] => none
  | '+' :: cs => parseNumericBody cs
  | '-' :: cs => (parseNumericBody cs).map Neg.neg
  | cs => parseNumericBody cs

/-- Leap year test (proleptic Gregorian, as pandas uses). -/
def isLeap (y : ℤ) : Bool := y % 4 = 0 && (y % 100 ≠ 0 || y % 400 = 0)

/-- Days in a month. -/
def daysInMonth (y : ℤ) (m : ℕ) : ℕ :=
  if m = 2 then (if isLeap y then 29 else 28)
  else if m = 4 ∨ m = 6 ∨ m = 9 ∨ m = 11 then 30
  else 31

/-- Days since 1970-01-01 of a civil date (standard days-from-civil
algorithm over the proleptic Gregorian calendar). -/
def daysFromCivil (y : ℤ) (m d : ℕ) : ℤ :=
  let y' := y - (if m ≤ 2 then 1 else 0)
  let era := Int.fdiv y' 400
  let yoe := y' - era * 400
  let mp : ℤ := if m > 2 then (m : ℤ) - 3 else (m : ℤ) + 9
  let doy := Int.fdiv (153 * mp + 2) 5 + (d : ℤ) - 1
  let doe := yoe * 365 + Int.fdiv yoe 4 - Int.fdiv yoe 100 + doy
  era * 146097 + doe - 719468

/-- Parse exactly two digit characters. -/
def parse2 (a b : Char) : Option ℕ :=
  match digitVal a, digitVal b with
  | some x, some y => some (x * 10 + y)
  | _, _ => none

/-- Parse the trailing timezone designator: nothing (naive), `Z`, or
`±HH:MM` (the value to add to the local reading to reach UTC). -/
def parseOffset : List Char → Option (ℤ × Bool)
  | [] => some (0, false)
  | ['Z'] => some (0, true)
  | [sg, o1, o2, ':', o3, o4] =>
      match parse2 o1 o2, parse2 o3 o4 with
      | some oh, some om =>
          if sg = '+' then some (-((oh : ℤ) * 3600 + (om : ℤ) * 60), true)
          else if sg = '-' then some ((oh : ℤ) * 3600 + (om : ℤ) * 60, true)
          else none
      | _, _ => none
  | _ => none

/-- Parse an optional `:SS` seconds field followed by the offset. -/
def parseSecAndOffset : List Char → Option (ℤ × Bool)
  | ':' :: s1 :: s2 :: rest =>
      match parse2 s1 s2 with
      | some ss =>
          if ss ≤ 59 then (parseOffset rest).map (fun p => ((ss : ℤ) + p.1, p.2)) else none
      | none => none
  | rest => parseOffset rest

/-- Parse the clock-and-offset tail of an ISO timestamp, returning
(seconds-within-day minus the UTC offset, offset-present flag). -/
def parseClock : List Char → Option (ℤ × Bool)
  | [] => some (0, false)
  | sep :: h1 :: h2 :: ':' :: m1 :: m2 :: rest =>
      if sep = 'T' ∨ sep = ' ' then
        match parse2 h1 h2, parse2 m1 m2 with
        | some hh, some mm =>
            if hh ≤ 23 ∧ mm ≤ 59 then
              (parseSecAndOffset rest).map
                (fun off => ((hh : ℤ) * 3600 + (mm : ℤ) * 60 + off.1, off.2))
            else none
        | _, _ => none
      else none
  | _ => none

/-- `pd.to_datetime` on one ISO-8601 string: returns (seconds since epoch in
UTC, had-an-explicit-offset flag), or `none` when unparseable. -/
def isoParse (s : String) : Option (ℤ × Bool) :=
  match s.toList with
  | y1 :: y2 :: y3 :: y4 :: '-' :: m1 :: m2 :: '-' :: d1 :: d2 :: rest =>
      match parseDigits [y1, y2, y3, y4], parse2 m1 m2, parse2 d1 d2 with
      | some yy, some mo, some dd =>
          if 1 ≤ mo ∧ mo ≤ 12 ∧ 1 ≤ dd ∧ dd ≤ daysInMonth (yy : ℤ) mo then
            (parseClock rest).map
              (fun p => (daysFromCivil (yy : ℤ) mo dd * 86400 + p.1, p.2))
          else none
      | _, _, _ => none
  | _ => none

/- ## Parser/Normalizer: hourly_to_frame -/

/-- Dynamic input of `hourly_to_frame`: the fetched JSON object (with its
optional `hourly` block, a mapping measurement-name → array of raw tokens),
or — when the function is re-applied to its own output — a DataFrame.  On a
DataFrame, `js.get("hourly", {})` returns the column named "hourly" if one
exists (a Series, whose truth value then raises) and `{}` otherwise. -/
inductive HInput where
  | jsonDict (hourly : Option (List (String × List Raw)))
  | frame (f : Frame)
deriving DecidableEq

/-- `pd.to_numeric(cell, errors="coerce")` on one raw token. -/
def toNumericCell : Raw → Cell
  | .rnum q => some q
  | .rstr s => parseNumeric s
  | .rtime _ _ => none
  | .rnull => none

/-- `pd.to_datetime(cell, utc=True, errors="coerce")` on one raw token.
Numeric tokens (which pandas would read as epoch nanoseconds; the provider's
`time` array only ever holds ISO strings) are treated as unparseable. -/
def pdToDatetimeUTC : Raw → Option ℤ
  | .rstr s => (isoParse s).map Prod.fst
  | .rtime _ t => some t
  | .rnum _ => none
  | .rnull => none

/-- Ascending order on timestamp keys with NaT placed last, as
`sort_index()` does. -/
def keyLT : Option ℤ → Option ℤ → Bool
  | some a, some b => a < b
  | some _, none => true
  | _, _ => false

/-- Insert one (position, key) row into an already sorted list, after all
rows whose key is not greater (stable). -/
def insertRow (x : ℕ × Option ℤ) : List (ℕ × Option ℤ) → List (ℕ × Option ℤ)
  | [] => [x]
  | y :: ys => if keyLT x.2 y.2 then x :: y :: ys else y :: insertRow x ys

/-- Stable sort of (position, key) rows by key, NaT last. -/
def sortRows : List (ℕ × Option ℤ) → List (ℕ × Option ℤ)
  | [] => []
  | x :: xs => insertRow x (sortRows xs)

/-- Pair each list entry with its position. -/
def withPos (l : List (Option ℤ)) : List (ℕ × Option ℤ) :=
  (List.range l.length).zip l

/-- All columns of the payload have the given length (`pd.DataFrame` raises
otherwise). -/
def allLen (p : List (String × List Raw)) (n : ℕ) : Bool :=
  p.all (fun c => c.2.length = n)

/-- Look up the first column with the given name. -/
def findCol (p : List (String × List Raw)) (name : String) : Option (List Raw) :=
  match p with
  | [] => none
  | c :: cs => if c.1 = name then some c.2 else findCol cs name

/-- `hourly_to_frame`: locate the hourly block; empty/missing → empty frame.
Otherwise build the frame, and when a `time` column is present parse it as
UTC (`errors="coerce"`), make it the index and sort ascending (NaT last) —
unparseable rows are coerced to NaT and kept, not dropped.  Finally coerce
every remaining column to numeric. -/
def hourly_to_frame : HInput → Except String Frame
  | .frame f =>
      if f.cols.any (fun c => c.1 = "hourly") then
        .error "ValueError: The truth value of a Series is ambiguous"
      else .ok emptyFrame
  | .jsonDict none => .ok emptyFrame
  | .jsonDict (some []) => .ok emptyFrame
  | .jsonDict (some (c0 :: rest)) =>
      let p := c0 :: rest
      let n := c0.2.length
      if allLen p n then
        match findCol p "time" with
        | some timeCol =>
            let times := timeCol.map pdToDatetimeUTC
            let perm := sortRows (withPos times)
            let others := p.filter (fun c => c.1 ≠ "time")
            .ok ⟨.time true (perm.map (fun pr => pr.2)),
                 others.map (fun c =>
                   (c.1, Col.numeric (perm.map (fun pr => toNumericCell (c.2.getD pr.1 .rnull)))))⟩
        | none =>
            .ok ⟨.range n, p.map (fun c => (c.1, Col.numeric (c.2.map toNumericCell)))⟩
      else .error "ValueError: All arrays must be of the same length"

/- ## Anomaly Scorer: rolling_anomaly -/

/-- Result cell of the z-score series.  A defined finite value is kept
symbolically as (numerator, window variance): the score is
`num / sqrt varr` with `varr > 0`.  `missing` is NaN; the infinities arise
from pandas float division by a zero standard deviation. -/
inductive ZCell where
  | missing
  | posinf
  | neginf
  | finite (num : ℚ) (varr : ℚ)
deriving DecidableEq

/-- `min_periods` used by `rolling_anomaly`: `max(4, window // 4)`. -/
def minPeriods (w : ℕ) : ℕ := max 4 (w / 4)

/-- The trailing window of size `w` ending at position `i`. -/
def windowVals (s : List Cell) (w i : ℕ) : List Cell :=
  (s.take (i + 1)).drop (i + 1 - w)

/-- The non-missing values of a window. -/
def validOf (l : List Cell) : List ℚ := l.filterMap id

/-- Arithmetic mean of a list of rationals. -/
def sampleMean (v : List ℚ) : ℚ := qdiv (qsum v) (v.length : ℚ)

/-- Sample variance (ddof = 1), as `rolling(...).std()` squares to. -/
def sampleVar (v : List ℚ) : ℚ :=
  qdiv (qsum (v.map (fun x => qmul (qsub x (sampleMean v)) (qsub x (sampleMean v)))))
       (qsub (v.length : ℚ) 1)

/-- The z-score cell at position `i`: NaN unless the trailing window holds at
least `min_periods` valid samples and the centre value is present; a zero
standard deviation gives float `0/0 = NaN` (the centre value necessarily
equals the mean) or `±inf` otherwise. -/
def zAt (s : List Cell) (w i : ℕ) : ZCell :=
  let valid := validOf (windowVals s w i)
  if valid.length < minPeriods w then .missing
  else
    match s.getD i none with
    | none => .missing
    | some x =>
        let m := sampleMean valid
        let v := sampleVar valid
        if v = 0 then
          if x = m then .missing else if m < x then .posinf else .neginf
        else .finite (qsub x m) v

/-- `rolling_anomaly(s, window)`: `None` and empty inputs are returned
unchanged; otherwise `rolling` validates `min_periods <= window` (raising a
`ValueError` when `window < 4`) and produces the z-score series. -/
def rolling_anomaly (s : Option (List Cell)) (w : ℕ) :
    Except String (Option (List ZCell)) :=
  match s with
  | none => .ok none
  | some l =>
      if l.isEmpty then .ok (some [])
      else if w < minPeriods w then
        .error "ValueError: min_periods must be smaller or equal to window"
      else .ok (some ((List.range l.length).map (fun i => zAt l w i)))

/- ## Aggregator: daily_summary -/

/-- Find a column by name, returning its cells when it is numeric. -/
def numericCol (cols : List (String × Col)) (name : String) : Option (List Cell) :=
  match cols with
  | [] => none
  | (nm, Col.numeric vs) :: cs => if nm = name then some vs else numericCol cs name
  | (nm, _) :: cs => if nm = name then none else numericCol cs name

/-- Positions with a present timestamp, paired with their calendar day
(floor of seconds since epoch over 86400); NaT rows drop out of the
grouping as they do in `resample`. -/
def dayPairs (ts : List (Option ℤ)) : List (ℕ × ℤ) :=
  ((List.range ts.length).zip ts).filterMap
    (fun p => p.2.map (fun t => (p.1, Int.fdiv t 86400)))

/-- Row positions contributing to a given day. -/
def rowsOf (pairs : List (ℕ × ℤ)) (d : ℤ) : List ℕ :=
  (pairs.filter (fun p => p.2 = d)).map (fun p => p.1)

/-- The present values of a column at the given row positions. -/
def colAt (vs : List Cell) (rows : List ℕ) : List ℚ :=
  rows.filterMap (fun i => vs.getD i none)

/-- Mean of a group: NaN when no value is present. -/
def meanOf (v : List ℚ) : Cell :=
  match v with | [] => none | _ => some (sampleMean v)

/-- Min of a group: NaN when no value is present. -/
def minOf (v : List ℚ) : Cell :=
  match v with | [] => none | x :: xs => some (xs.foldl qmin x)

/-- Max of a group: NaN when no value is present. -/
def maxOf (v : List ℚ) : Cell :=
  match v with | [] => none | x :: xs => some (xs.foldl qmax x)

/-- Sum of a group: pandas `sum` of an empty or all-NaN group is `0.0`. -/
def sumOf (v : List ℚ) : Cell := some (qsum v)

/-- The flattened output column names, in the order produced by flattening
the agg dict: `"_".join(col).strip("_")`. -/
def dailyNames : List String :=
  ["temperature_2m_mean", "temperature_2m_min", "temperature_2m_max",
   "precipitation_sum", "wind_speed_10m_mean"]

/-- `daily_summary`: empty input → empty result; otherwise `resample("D")`
over the datetime index (a positional index raises a `TypeError`) and
aggregate the three columns named in the agg dict (a missing column raises a
`KeyError`).  Every day between the first and last observed day contributes
a row, even when no sample falls on it. -/
def daily_summary (f : Frame) : Except String Frame :=
  if f.isEmptyF then .ok emptyFrame
  else
    match f.idx with
    | .range _ => .error "TypeError: Only valid with DatetimeIndex"
    | .time aware ts =>
        match numericCol f.cols "temperature_2m", numericCol f.cols "precipitation",
              numericCol f.cols "wind_speed_10m" with
        | some temps, some precs, some winds =>
            let pairs := dayPairs ts
            match pairs.map (fun p => p.2) with
            | [] =>
                .ok ⟨.time aware [], dailyNames.map (fun nm => (nm, Col.numeric []))⟩
            | d0 :: ds =>
                let dmin := ds.foldl zmin d0
                let dmax := ds.foldl zmax d0
                let days := (List.range ((dmax - dmin).toNat + 1)).map
                  (fun k => dmin + (k : ℤ))
                let stat := fun (vs : List Cell) (g : List ℚ → Cell) =>
                  Col.numeric (days.map (fun d => g (colAt vs (rowsOf pairs d))))
                .ok ⟨.time aware (days.map (fun d => some (d * 86400))),
                     [("temperature_2m_mean", stat temps meanOf),
                      ("temperature_2m_min", stat temps minOf),
                      ("temperature_2m_max", stat temps maxOf),
                      ("precipitation_sum", stat precs sumOf),
                      ("wind_speed_10m_mean", stat winds meanOf)]⟩
        | _, _, _ => .error "KeyError: agg column not found"

/- ## Cache Store: cache_path / save_cache / load_cache -/

/-- On-disk CSV cache file.  `blank` is what `to_csv` writes for a frame
with neither columns nor rows; otherwise the file holds the serialized index
(its header name and cells) followed by the serialized data columns. -/
inductive CSVFile where
  | blank
  | table (indexName : Option String) (indexCells : List Raw)
          (cols : List (String × List Raw))
deriving DecidableEq

/-- Serialize one numeric cell: NaN becomes an empty field. -/
def serializeCell : Cell → Raw
  | some q => .rnum q
  | none => .rnull

/-- Serialize one column to CSV tokens. -/
def serializeCol : Col → List Raw
  | .numeric vs => vs.map serializeCell
  | .text vs => vs.map (fun o => match o with | some s => .rstr s | none => .rnull)
  | .dt aware vs => vs.map (fun o => match o with | some t => .rtime aware t | none => .rnull)

/-- Serialize the index: a DatetimeIndex named "time" (the name given to it
by `set_index("time")` and preserved by `to_csv`), or an unnamed
RangeIndex written as plain integers. -/
def serializeIndex : FIndex → Option String × List Raw
  | .range n => (none, (List.range n).map (fun i => .rnum (i : ℚ)))
  | .time aware ts =>
      (some "time", ts.map (fun o => match o with | some t => .rtime aware t | none => .rnull))

/-- `df.to_csv(path)` contents. -/
def csvOfFrame (f : Frame) : CSVFile :=
  if numRows f = 0 ∧ f.cols = [] then .blank
  else .table (serializeIndex f.idx).1 (serializeIndex f.idx).2
              (f.cols.map (fun c => (c.1, serializeCol c.2)))

/-- Cache key: latitude/longitude rounded to 4 decimal digits, as the
`f"weather_{lat:.4f}_{lon:.4f}.csv"` file name does (Python's banker's
rounding differs only on exact half-way values, which never arise from the
configured locations). -/
abbrev Loc := ℤ × ℤ

/-- Round `q` to the nearest multiple of `1/10000`, expressed in `1/10000`
units: `⌊q * 10000 + 1/2⌋`, computed on numerator and denominator so that it
evaluates by machine arithmetic. -/
def roundE4 (q : ℚ) : ℤ := Int.fdiv (q.num * 20000 + q.den) (2 * q.den)

def cache_path (lat lon : ℚ) : Loc := (roundE4 lat, roundE4 lon)

/-- The cache directory: one file per location key. -/
abbrev Store := List (Loc × CSVFile)

/-- File present at a key? -/
def storeGet (st : Store) (k : Loc) : Option CSVFile :=
  match st with
  | [] => none
  | e :: es => if e.1 = k then some e.2 else storeGet es k

/-- `save_cache(df_utc, lat, lon)`: overwrite the location's file wholesale. -/
def save_cache (f : Frame) (lat lon : ℚ) (st : Store) : Store :=
  (cache_path lat lon, csvOfFrame f) :: st.filter (fun e => e.1 ≠ cache_path lat lon)

/-- Reading one serialized index cell back through
`parse_dates=["time"]`: gives (instant-or-NaT, offset-was-present). A token
that does not look like a datetime leaves the index unparsed, and the
subsequent `.tz` attribute access raises. -/
def parseTimeCell : Raw → Option (Option ℤ × Bool)
  | .rtime a t => some (some t, a)
  | .rstr s => (isoParse s).map (fun p => (some p.1, p.2))
  | .rnull => some (none, false)
  | .rnum _ => none

/-- Parse every index cell, or fail. -/
def parseTimeCells : List Raw → Option (List (Option ℤ × Bool))
  | [] => some []
  | c :: cs =>
      match parseTimeCell c, parseTimeCells cs with
      | some p, some ps => some (p :: ps)
      | _, _ => none

/-- Can a CSV token be read back as a numeric cell? -/
def rawNumericCell : Raw → Option Cell
  | .rnum q => some (some q)
  | .rnull => some none
  | .rstr s => (parseNumeric s).map some
  | .rtime _ _ => none

def rawNumericCells : List Raw → Option (List Cell)
  | [] => some []
  | c :: cs =>
      match rawNumericCell c, rawNumericCells cs with
      | some p, some ps => some (p :: ps)
      | _, _ => none

/-- Textual rendering of a CSV token, for columns `read_csv` leaves as
object dtype (never hit by files this pipeline writes; the rendering of
non-string tokens is schematic). -/
def rawToText : Raw → Option String
  | .rnum q => some (toString q.num)
  | .rstr s => some s
  | .rtime _ t => some (toString t)
  | .rnull => none

/-- `read_csv` column type inference: all tokens numeric-or-empty → float
column, otherwise object column. -/
def readCol (rs : List Raw) : Col :=
  match rawNumericCells rs with
  | some cells => Col.numeric cells
  | none => Col.text (rs.map rawToText)

/-- `load_cache(lat, lon)`: no file → empty frame; otherwise
`read_csv(path, parse_dates=["time"], index_col="time")`, which needs a
`time` column (the blank file raises `EmptyDataError`, a file without one
raises a `ValueError`), then `tz_localize("UTC")` when the parsed index came
back naive — so the returned index is always UTC-aware. -/
def load_cache (lat lon : ℚ) (st : Store) : Except String Frame :=
  match storeGet st (cache_path lat lon) with
  | none => .ok emptyFrame
  | some .blank => .error "EmptyDataError: No columns to parse from file"
  | some (.table idxName idxCells cols) =>
      if idxName = some "time" then
        match parseTimeCells idxCells with
        | none => .error "AttributeError: index has no attribute tz"
        | some parsed =>
            .ok ⟨.time true (parsed.map (fun p => p.1)),
                 cols.map (fun c => (c.1, readCol c.2))⟩
      else .error "ValueError: Missing column provided to parse_dates: time"

/- ## Display Sanitizer: arrow_safe_df -/

/-- `df.reset_index()`: the index becomes the leading column and the frame
gets a fresh positional index.  The pipeline's DatetimeIndex is named
"time", and inserting it raises a `ValueError` when a column of that name
already exists — `reset_index` sits outside every try/except in
`arrow_safe_df`, so this error propagates.  An unnamed RangeIndex becomes a
column named "index", or "level_0" when an "index" column already exists;
if that name is also taken the insert raises. -/
def resetIndex (f : Frame) : Except String Frame :=
  match f.idx with
  | .range n =>
      if f.cols.any (fun c => c.1 = "index") then
        if f.cols.any (fun c => c.1 = "level_0") then
          .error "ValueError: cannot insert level_0, already exists"
        else
          .ok ⟨.range n,
               ("level_0", Col.numeric ((List.range n).map (fun i => some (i : ℚ)))) :: f.cols⟩
      else
        .ok ⟨.range n,
             ("index", Col.numeric ((List.range n).map (fun i => some (i : ℚ)))) :: f.cols⟩
  | .time aware ts =>
      if f.cols.any (fun c => c.1 = "time") then
        .error "ValueError: cannot insert time, already exists"
      else .ok ⟨.range ts.length, ("time", Col.dt aware ts) :: f.cols⟩

/-- Does `reset_index` collide with an existing column?  This is the one
condition under which `arrow_safe_df` raises. -/
def resetCollides (f : Frame) : Bool :=
  match f.idx with
  | .range _ => f.cols.any (fun c => c.1 = "index") && f.cols.any (fun c => c.1 = "level_0")
  | .time _ _ => f.cols.any (fun c => c.1 = "time")

/-- `pd.to_datetime(column, errors="coerce")` over a text column: each
string parsed as a (naive) timestamp, failures become NaT. -/
def coerceTextCol (vs : List (Option String)) : List (Option ℤ) :=
  vs.map (fun o => o.bind (fun s => (isoParse s).map Prod.fst))

/-- `coerced.notna().sum()`: the number of successfully parsed cells. -/
def notnaCount (vs : List (Option ℤ)) : ℕ := (vs.filterMap id).length

/-- Per-column sanitization pass of `arrow_safe_df`: an object/string column
at least 80% of whose cells parse as timestamps (`int(0.8 * len)`, i.e.
`4 * len / 5` rounded down, with a floor of 1) is promoted to a (naive)
datetime column; a timezone-aware datetime column is stripped of its
timezone.  Numeric columns and under-threshold text columns are unchanged. -/
def sanitizeCol (c : Col) : Col :=
  match c with
  | .text vs =>
      let coerced := coerceTextCol vs
      if max 1 (4 * vs.length / 5) ≤ notnaCount coerced then .dt false coerced
      else .text vs
  | .dt true vs => .dt false vs
  | c => c

/-- `arrow_safe_df`: an empty frame is returned unchanged; otherwise reset
the index and sanitize every column.  Every per-column coercion failure
degrades the column instead of raising, but the initial `reset_index` call
is outside the try/excepts and raises on a name collision. -/
def arrow_safe_df (f : Frame) : Except String Frame :=
  if f.isEmptyF then .ok f
  else
    match resetIndex f with
    | .error e => .error e
    | .ok g => .ok ⟨g.idx, g.cols.map (fun c => (c.1, sanitizeCol c.2))⟩

/- ## Pipeline drivers

The fetch-and-cache driver appears twice: once in src/fetch.py (using
`df_utc.empty`) and once in src/FirstDataMine/app_streamlit.py (using
`df_utc.empty()` — calling the bool property, which raises a `TypeError`
inside the except handler).  Both are modelled. -/

/-- Observable outcome of one driver run: the series handed to the display
steps together with an optional `st.error` diagnostic, an `st.stop` halt, or
an uncaught exception. -/
inductive Outcome where
  | display (series : Frame) (diag : Option String)
  | stopped (diag : Option String)
  | crashed (err : String)
deriving DecidableEq

/-- Fallback path of the fetch.py driver: `st.error`, reload the cache, and
`st.stop` when the reloaded series is empty. -/
def fallbackFetchPy (e : String) (lat lon : ℚ) (st : Store) : Outcome × Store :=
  match load_cache lat lon st with
  | .error e2 => (.crashed e2, st)
  | .ok df =>
      if df.isEmptyF then (.stopped (some ("Fetch error: " ++ e)), st)
      else (.display df (some ("Fetch error: " ++ e)), st)

/-- Fallback path of the app_streamlit.py driver: `st.error`, reload the
cache, then `df_utc.empty()` — a bool called as a function — raises a
`TypeError` before the emptiness test can happen. -/
def fallbackApp (_e : String) (lat lon : ℚ) (st : Store) : Outcome × Store :=
  match load_cache lat lon st with
  | .error e2 => (.crashed e2, st)
  | .ok _ => (.crashed "TypeError: bool object is not callable", st)

/-- The try/except fetch-and-cache driver of src/fetch.py: on success parse
and overwrite the cache; on any exception fall back to the cache, stopping
when it is empty. -/
def run_driver_fetch_py (fetchRes : Except String (Option (List (String × List Raw))))
    (lat lon : ℚ) (st : Store) : Outcome × Store :=
  match fetchRes with
  | .ok js =>
      match hourly_to_frame (.jsonDict js) with
      | .ok f => (.display f none, save_cache f lat lon st)
      | .error e => fallbackFetchPy e lat lon st
  | .error e => fallbackFetchPy e lat lon st

/-- The try/except fetch-and-cache driver of
src/FirstDataMine/app_streamlit.py, whose fallback calls `df_utc.empty()`. -/
def run_driver_app (fetchRes : Except String (Option (List (String × List Raw))))
    (lat lon : ℚ) (st : Store) : Outcome × Store :=
  match fetchRes with
  | .ok js =>
      match hourly_to_frame (.jsonDict js) with
      | .ok f => (.display f none, save_cache f lat lon st)
      | .error e => fallbackApp e lat lon st
  | .error e => fallbackApp e lat lon st

/- ## Concrete fixtures used by witnesses and counterexamples -/

/-- Latitude of the default location, 39.0639. -/
def gjLat : ℚ := mkRat 390639 10000

/-- Longitude of the default location, -108.5506. -/
def gjLon : ℚ := mkRat (-1085506) 10000

/-- A prior normalized two-hour UTC series, as a cache would hold. -/
def cachedFrame : Frame :=
  ⟨.time true [some 1756944000, some 1756947600],
   [("temperature_2m", Col.numeric [some 70, none]),
    ("precipitation", Col.numeric [some 0, some (mkRat 1 2)])]⟩

/-- A payload whose second timestamp string does not parse. -/
def badTimePayload : List (String × List Raw) :=
  [("time", [Raw.rstr "1970-01-02T00:00", Raw.rstr "bad", Raw.rstr "1970-01-01T00:00"]),
   ("temperature_2m", [Raw.rnum 70, Raw.rnum 72, Raw.rnum 68])]

/-- A minimal well-formed payload and its normalized frame. -/
def normPayload : List (String × List Raw) :=
  [("time", [Raw.rstr "1970-01-02T00:00"]), ("temperature_2m", [Raw.rnum 70])]

def normFrame : Frame :=
  ⟨.time true [some 86400], [("temperature_2m", Col.numeric [some 70])]⟩

/-- Three hourly samples on one local calendar day: temperatures
[70, 72, 68], precipitation [0, 1, 0], wind [5, 6, 7]. -/
def singleDayFrame : Frame :=
  ⟨.time false [some 3600, some 7200, some 10800],
   [("temperature_2m", Col.numeric [some 70, some 72, some 68]),
    ("relative_humidity_2m", Col.numeric [some 10, some 20, some 30]),
    ("precipitation", Col.numeric [some 0, some 1, some 0]),
    ("wind_speed_10m", Col.numeric [some 5, some 6, some 7])]⟩

/-- A constant series whose every full window has zero standard deviation. -/
def constSeries : List Cell := [some 5, some 5, some 5, some 5]

/-- A payload without a `time` key. -/
def noTimePayload : List (String × List Raw) :=
  [("temperature_2m", [Raw.rnum 70, Raw.rstr "x"])]

/-- A display table: UTC-aware time index and a text column four of whose
five entries parse as dates. -/
def displayFrame : Frame :=
  ⟨.time true [some 0, some 3600, some 7200, some 10800, some 14400],
   [("note", Col.text [some "2025-09-01", some "2025-09-02", some "2025-09-03",
                       some "2025-09-04", some "not a date"])]⟩

/-- A table whose "time"-named index collides with a "time" data column, so
`reset_index` cannot insert the index as a column. -/
def collideFrame : Frame :=
  ⟨.time true [some 0], [("time", Col.numeric [some 1])]⟩

deriving instance DecidableEq for Except

/- ## Bridge lemmas: the computational arithmetic is the standard one -/

theorem qadd_eq (a b : ℚ) : qadd a b = a + b := (Rat.add_def' a b).symm

theorem qsub_eq (a b : ℚ) : qsub a b = a - b := (Rat.sub_def' a b).symm

theorem qmul_eq (a b : ℚ) : qmul a b = a * b := by
  rw [qmul, Rat.mul_def, Rat.normalize_eq_mkRat]

theorem qdiv_eq (a b : ℚ) : qdiv a b = a / b := by
  rw [qdiv]
  conv_rhs => rw [← Rat.num_divInt_den a, ← Rat.num_divInt_den b]
  rw [Rat.divInt_div_divInt]

theorem qmin_eq (a b : ℚ) : qmin a b = min a b := by rw [qmin, min_def]

theorem qmax_eq (a b : ℚ) : qmax a b = max a b := by rw [qmax, max_def]

theorem qsum_eq (l : List ℚ) : qsum l = l.sum := by
  induction l with
  | nil => rfl
  | cons x xs ih => rw [qsum, qadd_eq, ih, List.sum_cons]

theorem zmin_eq (a b : ℤ) : zmin a b = min a b := by rw [zmin, min_def]

theorem zmax_eq (a b : ℤ) : zmax a b = max a b := by rw [zmax, max_def]

/-- The mean written with the standard field operations. -/
theorem sampleMean_eq (v : List ℚ) : sampleMean v = v.sum / v.length := by
  rw [sampleMean, qdiv_eq, qsum_eq]

/-- The variance written with the standard field operations. -/
theorem sampleVar_eq (v : List ℚ) :
    sampleVar v = ((v.map (fun x => (x - sampleMean v) ^ 2)).sum) / ((v.length : ℚ) - 1) := by
  rw [sampleVar, qdiv_eq, qsum_eq, qsub_eq]
  have hmap : List.map (fun x => qmul (qsub x (sampleMean v)) (qsub x (sampleMean v))) v =
      List.map (fun x => (x - sampleMean v) ^ 2) v := by
    apply List.map_congr_left
    intro x _
    rw [qmul_eq, qsub_eq, sq]
  rw [hmap]

/- ## Claim theorems -/

/-- C1: the claim describes the intended fallback — on a fetch exception
with a non-empty cached series the driver returns the cached series
unchanged with a fetch-failure diagnostic and no cache write, and stops on
an empty cache.  The src/fetch.py driver does exactly that (first two
conjuncts), but the src/FirstDataMine/app_streamlit.py driver crashes with
a `TypeError` on the same input because it calls the bool property
`df_utc.empty` as a function (third conjunct) — a slip contradicting its
own duplicate, hence a code bug rather than a spec error. -/
theorem claim_C1_fetch_failure_fallback :
    run_driver_fetch_py (.error "TransportError") gjLat gjLon
        (save_cache cachedFrame gjLat gjLon []) =
      (.display cachedFrame (some "Fetch error: TransportError"),
       save_cache cachedFrame gjLat gjLon []) ∧
    run_driver_fetch_py (.error "TransportError") gjLat gjLon [] =
      (.stopped (some "Fetch error: TransportError"), []) ∧
    run_driver_app (.error "TransportError") gjLat gjLon
        (save_cache cachedFrame gjLat gjLon []) =
      (.crashed "TypeError: bool object is not callable",
       save_cache cachedFrame gjLat gjLon []) := by
  refine ⟨by decide, by decide, by decide⟩

/-- C5: the Aggregator maps the empty frame to the empty frame, and over a
single local calendar day with temperatures [70, 72, 68], precipitation
[0, 1, 0] and wind [5, 6, 7] produces one row with temperature mean 70,
min 68, max 72 and precipitation sum 1, under the flattened
`<measurement>_<statistic>` column names.  (The function is deterministic,
so the naming is stable across runs.) -/
theorem claim_C5_daily_summary :
    daily_summary emptyFrame = .ok emptyFrame ∧
    daily_summary singleDayFrame = .ok
      ⟨.time false [some 0],
       [("temperature_2m_mean", Col.numeric [some 70]),
        ("temperature_2m_min", Col.numeric [some 68]),
        ("temperature_2m_max", Col.numeric [some 72]),
        ("precipitation_sum", Col.numeric [some 1]),
        ("wind_speed_10m_mean", Col.numeric [some 6])]⟩ := by
  refine ⟨by decide, by decide⟩

/-- C6 counterexample: `hourly_to_frame` is not idempotent.  On a concrete
payload it produces a non-empty normalized frame, but re-applying it to
that frame yields the empty frame (`js.get("hourly", {})` on a DataFrame
without an `hourly` column returns `{}`), so applying the normalizer twice
differs from applying it once. -/
theorem claim_C6_counterexample :
    hourly_to_frame (.jsonDict (some normPayload)) = .ok normFrame ∧
    hourly_to_frame (.frame normFrame) = .ok emptyFrame ∧
    emptyFrame ≠ normFrame := by
  refine ⟨by decide, by decide, by decide⟩

/-- C6 amended: re-applying `hourly_to_frame` to any frame without a column
named "hourly" — in particular to any of its own outputs that has no such
column — returns the empty frame, so re-parsing an already-normalized
non-empty series empties it instead of being a no-op; idempotence holds
only when the first application already returned an empty frame. -/
theorem claim_C6_reapply_yields_empty (f : Frame)
    (h : f.cols.any (fun c => c.1 = "hourly") = false) :
    hourly_to_frame (.frame f) = .ok emptyFrame := by
  simp [hourly_to_frame, h]

theorem claim_C6_witness :
    (normFrame.cols.any (fun c => c.1 = "hourly") = false) ∧
    hourly_to_frame (.frame normFrame) = .ok emptyFrame :=
  ⟨by decide, claim_C6_reapply_yields_empty normFrame (by decide)⟩

/-- C9: saving an empty series writes a blank CSV, and a subsequent load of
the same location raises (`read_csv` finds no columns) instead of
returning a series; a location with no file at all still loads as the
empty frame. -/
theorem claim_C9_empty_save_breaks_load (lat lon : ℚ) (st : Store) :
    load_cache lat lon (save_cache emptyFrame lat lon st) =
      .error "EmptyDataError: No columns to parse from file" ∧
    (storeGet st (cache_path lat lon) = none →
      load_cache lat lon st = .ok emptyFrame) := by
  constructor
  · simp [load_cache, save_cache, storeGet, csvOfFrame, emptyFrame, numRows, FIndex.len]
  · intro h
    simp [load_cache, h]

theorem claim_C9_witness :
    storeGet [] (cache_path gjLat gjLon) = none ∧
    load_cache gjLat gjLon (save_cache emptyFrame gjLat gjLon []) =
      .error "EmptyDataError: No columns to parse from file" ∧
    load_cache gjLat gjLon [] = .ok emptyFrame :=
  ⟨by decide,
   (claim_C9_empty_save_breaks_load gjLat gjLon []).1,
   (claim_C9_empty_save_breaks_load gjLat gjLon []).2 (by decide)⟩

/-- C10: a non-empty hourly block without a `time` key becomes a frame on
the default positional index — not a UTC timestamp index, with no sort —
while every column is still coerced to numeric. -/
theorem claim_C10_no_time_key (c0 : String × List Raw) (rest : List (String × List Raw))
    (hrect : allLen (c0 :: rest) c0.2.length = true)
    (hnotime : findCol (c0 :: rest) "time" = none) :
    hourly_to_frame (.jsonDict (some (c0 :: rest))) =
      .ok ⟨.range c0.2.length,
           (c0 :: rest).map (fun c => (c.1, Col.numeric (c.2.map toNumericCell)))⟩ := by
  simp [hourly_to_frame, hrect, hnotime]

theorem claim_C10_witness :
    (allLen noTimePayload 2 = true ∧ findCol noTimePayload "time" = none) ∧
    hourly_to_frame (.jsonDict (some noTimePayload)) =
      .ok ⟨.range 2, [("temperature_2m", Col.numeric [some 70, none])]⟩ :=
  ⟨⟨by decide, by decide⟩,
   claim_C10_no_time_key ("temperature_2m", [Raw.rnum 70, Raw.rstr "x"]) [] (by decide) (by decide)⟩

/-- C8 counterexample: the Display Sanitizer does raise for some input
tables.  On a table whose "time"-named timestamp index collides with a
"time" data column, `reset_index()` — which runs outside every try/except
in the function — raises a `ValueError`, refuting "never raises for any
input table". -/
theorem claim_C8_counterexample :
    arrow_safe_df collideFrame = .error "ValueError: cannot insert time, already exists" := by
  decide

/-- C8 amended: the Display Sanitizer never raises on any table whose
columns do not collide with the name under which `reset_index` re-inserts
the index ("time" for this pipeline's datetime index; "index" falling back
to "level_0" for an unnamed positional index) — on a collision
`reset_index` itself raises a `ValueError` (first part).  On a non-empty
collision-free table with a UTC-aware time index and a text column whose
parse count reaches the 80% threshold, it strips the timezone from the
time column and promotes the text column to a (naive) datetime column;
per-column coercion failures still degrade the column rather than raising
(second part). -/
theorem claim_C8_arrow_safe :
    (∀ f : Frame, resetCollides f = false → ∃ g, arrow_safe_df f = .ok g) ∧
    (∀ (name : String) (ts : List (Option ℤ)) (vs : List (Option String)),
      name ≠ "time" → ts ≠ [] →
      max 1 (4 * vs.length / 5) ≤ notnaCount (coerceTextCol vs) →
      arrow_safe_df ⟨.time true ts, [(name, Col.text vs)]⟩ =
        .ok ⟨.range ts.length,
             [("time", Col.dt false ts), (name, Col.dt false (coerceTextCol vs))]⟩) := by
  constructor
  · intro f hcol
    unfold arrow_safe_df
    by_cases he : f.isEmptyF
    · rw [if_pos he]
      exact ⟨f, rfl⟩
    · rw [if_neg he]
      obtain ⟨idx, cols⟩ := f
      cases idx with
      | time aware ts =>
          have h : cols.any (fun c => c.1 = "time") = false := by
            simpa [resetCollides] using hcol
          simp [resetIndex, h]
      | range n =>
          have h : (cols.any (fun c => c.1 = "index") &&
              cols.any (fun c => c.1 = "level_0")) = false := by
            simpa [resetCollides] using hcol
          by_cases h1 : cols.any (fun c => c.1 = "index") = true
          · have h2 : cols.any (fun c => c.1 = "level_0") = false := by
              rw [h1] at h
              simpa using h
            simp [resetIndex, h1, h2]
          · simp [resetIndex, h1]
  · intro name ts vs hname hne hthresh
    have hlen : ts.length ≠ 0 := fun h => hne (List.length_eq_zero.mp h)
    have hnocol : ([(name, Col.text vs)].any (fun c => c.1 = "time")) = false := by
      simp [hname]
    simp only [max_le_iff] at hthresh
    simp [arrow_safe_df, Frame.isEmptyF, numRows, FIndex.len, hlen, resetIndex, hnocol,
      sanitizeCol, hthresh.1, hthresh.2]

theorem claim_C8_witness :
    (resetCollides displayFrame = false ∧
     ("note" : String) ≠ "time" ∧
     max 1 (4 * 5 / 5) ≤ notnaCount (coerceTextCol [some "2025-09-01", some "2025-09-02",
       some "2025-09-03", some "2025-09-04", some "not a date"])) ∧
    (∃ g, arrow_safe_df displayFrame = .ok g) ∧
    arrow_safe_df displayFrame =
      .ok ⟨.range 5,
       [("time", Col.dt false [some 0, some 3600, some 7200, some 10800, some 14400]),
        ("note", Col.dt false [some 1756684800, some 1756771200, some 1756857600,
                               some 1756944000, none])]⟩ :=
  ⟨⟨by decide, by decide, by decide⟩,
   claim_C8_arrow_safe.1 displayFrame (by decide),
   by
    have h := claim_C8_arrow_safe.2 "note"
      [some 0, some 3600, some 7200, some 10800, some 14400]
      [some "2025-09-01", some "2025-09-02", some "2025-09-03", some "2025-09-04",
       some "not a date"] (by decide) (by decide) (by decide)
    exact h⟩

/- ## Anomaly scorer lemmas (claims C4 and C7) -/

/-- Indexing into a dropped prefix. -/
theorem drop_getElem? (l : List Cell) (n m : ℕ) : (l.drop n)[m]? = l[n + m]? := by
  induction l generalizing n with
  | nil => simp
  | cons a t ih =>
      cases n with
      | zero => simp
      | succ k =>
          have : k + 1 + m = (k + m) + 1 := by omega
          simp [List.drop_succ_cons, ih k, this]

/-- A successful `rolling_anomaly` run is the pointwise `zAt` series, and —
when the validation that `min_periods <= window` was reached — the window
bound holds. -/
theorem rolling_ok_elim {s : List Cell} {w : ℕ} {zs : List ZCell}
    (hok : rolling_anomaly (some s) w = .ok (some zs)) :
    zs = (List.range s.length).map (fun j => zAt s w j) ∧ (s ≠ [] → minPeriods w ≤ w) := by
  simp only [rolling_anomaly] at hok
  by_cases he : s.isEmpty
  · rw [if_pos he] at hok
    obtain rfl : s = [] := List.isEmpty_iff.mp he
    have hzs : zs = [] := by simpa using hok.symm
    subst hzs
    exact ⟨by simp, fun h => absurd rfl h⟩
  · rw [if_neg he] at hok
    by_cases hw : w < minPeriods w
    · rw [if_pos hw] at hok
      simp at hok
    · rw [if_neg hw] at hok
      have hzs : zs = (List.range s.length).map (fun j => zAt s w j) := by
        simpa using hok.symm
      exact ⟨hzs, fun _ => not_lt.mp hw⟩

/-- The centre value of a non-degenerate trailing window belongs to it. -/
theorem getD_mem_window (s : List Cell) (w i : ℕ) (hi : i < s.length) (hw : 1 ≤ w) :
    s.getD i none ∈ windowVals s w i := by
  have hidx : (windowVals s w i)[i - (i + 1 - w)]? = s[i]? := by
    unfold windowVals
    rw [drop_getElem?]
    have harith : i + 1 - w + (i - (i + 1 - w)) = i := by omega
    rw [harith, List.getElem?_take_of_lt (by omega)]
  have hsome : s[i]? = some (s.getD i none) := by
    rw [List.getD_eq_getElem?_getD]
    cases hx : s[i]? with
    | none => exact absurd (List.getElem?_eq_none_iff.mp hx) (by omega)
    | some v => rfl
  exact List.getElem?_mem (hidx.trans hsome)

/-- Sum of nonnegative rationals vanishes only if each term vanishes. -/
theorem sum_eq_zero_forall (l : List ℚ) (hnn : ∀ x ∈ l, 0 ≤ x) (hz : l.sum = 0) :
    ∀ x ∈ l, x = 0 := by
  induction l with
  | nil => intro x hx; cases hx
  | cons a t ih =>
      rw [List.sum_cons] at hz
      have ha : 0 ≤ a := hnn a (List.mem_cons_self a t)
      have ht : 0 ≤ t.sum := List.sum_nonneg (fun x hx => hnn x (List.mem_cons_of_mem a hx))
      have ha0 : a = 0 := by linarith
      have ht0 : t.sum = 0 := by linarith
      intro x hx
      rcases List.mem_cons.mp hx with rfl | hx
      · exact ha0
      · exact ih (fun y hy => hnn y (List.mem_cons_of_mem a hy)) ht0 x hx

/-- A window of at least two samples with zero sample variance is constant
at its mean. -/
theorem eq_mean_of_var_zero (v : List ℚ) (h2 : 2 ≤ v.length) (hv : sampleVar v = 0) :
    ∀ x ∈ v, x = sampleMean v := by
  rw [sampleVar_eq] at hv
  have hden : ((v.length : ℚ) - 1) ≠ 0 := by
    have h2' : (2 : ℚ) ≤ (v.length : ℚ) := by exact_mod_cast h2
    intro h
    rw [sub_eq_zero] at h
    rw [h] at h2'
    norm_num at h2'
  rcases (div_eq_zero_iff.mp hv) with hnum | hbad
  · intro x hx
    have hsq : (x - sampleMean v) ^ 2 = 0 := by
      refine sum_eq_zero_forall _ (fun y hy => ?_) hnum _ (List.mem_map_of_mem _ hx)
      obtain ⟨z, _, rfl⟩ := List.mem_map.mp hy
      exact sq_nonneg _
    have := pow_eq_zero_iff (n := 2) (by norm_num) |>.mp hsq
    linarith [sub_eq_zero.mp this]
  · exact absurd hbad hden

/-- C4: a z-score cell is defined only when the trailing window of the
input series holds at least `max(4, W // 4)` valid samples; a `None` or
empty input is returned unchanged, without an error. -/
theorem claim_C4_min_valid_needed :
    (∀ w, rolling_anomaly none w = .ok none) ∧
    (∀ w, rolling_anomaly (some []) w = .ok (some [])) ∧
    (∀ (s : List Cell) (w : ℕ) (zs : List ZCell) (i : ℕ) (cell : ZCell),
      rolling_anomaly (some s) w = .ok (some zs) →
      zs[i]? = some cell → cell ≠ ZCell.missing →
      minPeriods w ≤ (validOf (windowVals s w i)).length) := by
  refine ⟨fun w => rfl, fun w => rfl, ?_⟩
  intro s w zs i cell hok hget hcell
  obtain ⟨hzs, -⟩ := rolling_ok_elim hok
  subst hzs
  rw [List.getElem?_map] at hget
  by_cases hi : i < s.length
  · rw [List.getElem?_range hi] at hget
    simp only [Option.map_some'] at hget
    have hc := Option.some.inj hget
    subst hc
    by_contra hlt
    push_neg at hlt
    exact hcell (by simp [zAt, hlt])
  · rw [List.getElem?_eq_none (by simpa using not_lt.mp hi)] at hget
    simp at hget

theorem claim_C4_witness :
    (rolling_anomaly (some [some 1, some 2, some 3, some 4, some 5]) 4 =
      .ok (some [ZCell.missing, ZCell.missing, ZCell.missing,
                 ZCell.finite (mkRat 3 2) (mkRat 5 3), ZCell.finite (mkRat 3 2) (mkRat 5 3)])) ∧
    minPeriods 4 ≤ (validOf (windowVals [some 1, some 2, some 3, some 4, some 5] 4 3)).length :=
  ⟨by decide,
   claim_C4_min_valid_needed.2.2 [some 1, some 2, some 3, some 4, some 5] 4
     [ZCell.missing, ZCell.missing, ZCell.missing,
      ZCell.finite (mkRat 3 2) (mkRat 5 3), ZCell.finite (mkRat 3 2) (mkRat 5 3)] 3
     (ZCell.finite (mkRat 3 2) (mkRat 5 3)) (by decide) (by decide) (by decide)⟩

/-- C7: at a position whose trailing window meets the minimum-valid-count
requirement but has zero variance (zero standard deviation), the scorer's
cell is missing — the float evaluation is `0/0 = NaN`, because the centre
value necessarily equals the window mean — and never a zero z-score. -/
theorem claim_C7_zero_std_undefined (s : List Cell) (w : ℕ) (zs : List ZCell) (i : ℕ)
    (hok : rolling_anomaly (some s) w = .ok (some zs)) (hi : i < zs.length)
    (hcnt : minPeriods w ≤ (validOf (windowVals s w i)).length)
    (hvar : sampleVar (validOf (windowVals s w i)) = 0) :
    zs[i]? = some ZCell.missing := by
  obtain ⟨hzs, hwge⟩ := rolling_ok_elim hok
  have hslen : i < s.length := by
    have := hi
    rw [hzs] at this
    simpa using this
  have hw1 : 1 ≤ w := by
    have hne : s ≠ [] := by
      intro h
      rw [h] at hslen
      simp at hslen
    have := hwge hne
    have h4 : 4 ≤ minPeriods w := le_max_left _ _
    omega
  have hcell : zs[i]? = some (zAt s w i) := by
    rw [hzs, List.getElem?_map, List.getElem?_range hslen, Option.map_some']
  rw [hcell]
  congr 1
  unfold zAt
  simp only [not_lt.mpr hcnt, if_neg (not_lt.mpr hcnt)]
  cases hx : s.getD i none with
  | none => simp [hx]
  | some x =>
      have hxmem : x ∈ validOf (windowVals s w i) := by
        have hmem : s.getD i none ∈ windowVals s w i := getD_mem_window s w i hslen hw1
        rw [hx] at hmem
        exact List.mem_filterMap.mpr ⟨some x, hmem, rfl⟩
      have h2 : 2 ≤ (validOf (windowVals s w i)).length := by
        have h4 : 4 ≤ minPeriods w := le_max_left _ _
        omega
      have hxm : x = sampleMean (validOf (windowVals s w i)) :=
        eq_mean_of_var_zero _ h2 hvar x hxmem
      simp [hx, hvar, hxm]

theorem claim_C7_witness :
    (minPeriods 4 ≤ (validOf (windowVals constSeries 4 3)).length ∧
     sampleVar (validOf (windowVals constSeries 4 3)) = 0) ∧
    ([ZCell.missing, ZCell.missing, ZCell.missing, ZCell.missing] : List ZCell)[3]? =
      some ZCell.missing :=
  ⟨⟨by decide, by decide⟩,
   claim_C7_zero_std_undefined constSeries 4
     [ZCell.missing, ZCell.missing, ZCell.missing, ZCell.missing] 3
     (by decide) (by decide) (by decide) (by decide)⟩

/- ## Row-sort lemmas (claim C2) -/

/-- Insertion keeps the multiset of rows. -/
theorem insertRow_perm (x : ℕ × Option ℤ) (l : List (ℕ × Option ℤ)) :
    (insertRow x l).Perm (x :: l) := by
  induction l with
  | nil => simp [insertRow]
  | cons y ys ih =>
      unfold insertRow
      by_cases h : keyLT x.2 y.2
      · rw [if_pos h]
      · rw [if_neg h]
        exact ((ih.cons y).trans (List.Perm.swap x y ys)).symm.symm

/-- The sort keeps the multiset of rows. -/
theorem sortRows_perm (l : List (ℕ × Option ℤ)) : (sortRows l).Perm l := by
  induction l with
  | nil => simp [sortRows]
  | cons x xs ih => exact (insertRow_perm x (sortRows xs)).trans (ih.cons x)

/-- Strict key order is asymmetric. -/
theorem keyLT_asymm {a b : Option ℤ} (h : keyLT a b = true) : keyLT b a = false := by
  cases a <;> cases b <;> simp_all [keyLT]
  omega

/-- Strict key order is transitive. -/
theorem keyLT_trans {a b c : Option ℤ} (h1 : keyLT a b = true) (h2 : keyLT b c = true) :
    keyLT a c = true := by
  cases a <;> cases b <;> cases c <;> simp_all [keyLT]
  omega

/-- The non-strict row order used to state sortedness, NaT last. -/
def rowLE (a b : ℕ × Option ℤ) : Prop := keyLT b.2 a.2 = false

/-- Inserting into a sorted list keeps it sorted. -/
theorem insertRow_sorted (x : ℕ × Option ℤ) (l : List (ℕ × Option ℤ))
    (hl : l.Pairwise rowLE) : (insertRow x l).Pairwise rowLE := by
  induction l with
  | nil => simp [insertRow, List.Pairwise]
  | cons y ys ih =>
      rw [List.pairwise_cons] at hl
      unfold insertRow
      by_cases h : keyLT x.2 y.2
      · rw [if_pos h]
        refine List.Pairwise.cons ?_ (List.Pairwise.cons hl.1 hl.2)
        intro z hz
        rcases List.mem_cons.mp hz with rfl | hz
        · exact keyLT_asymm h
        · have hyz : keyLT z.2 y.2 = false := hl.1 z hz
          unfold rowLE
          by_contra hzx
          rw [Bool.not_eq_false] at hzx
          rw [keyLT_trans hzx h] at hyz
          cases hyz
      · rw [if_neg h]
        refine List.Pairwise.cons ?_ (ih hl.2)
        intro z hz
        have hz' : z ∈ x :: ys := (insertRow_perm x ys).mem_iff.mp hz
        rcases List.mem_cons.mp hz' with rfl | hz'
        · show keyLT z.2 y.2 = false
          rw [Bool.not_eq_true] at h
          exact h
        · exact hl.1 z hz'

/-- The sort produces a sorted list. -/
theorem sortRows_sorted (l : List (ℕ × Option ℤ)) : (sortRows l).Pairwise rowLE := by
  induction l with
  | nil => simp [sortRows, List.Pairwise]
  | cons x xs ih => exact insertRow_sorted x (sortRows xs) ih

/-- Reading every position of a list through `getD` is mapping over it. -/
theorem range_getD_map {α β : Type} (l : List α) (g : α → β) (d : α) :
    (List.range l.length).map (fun i => g (l.getD i d)) = l.map g := by
  induction l with
  | nil => simp
  | cons a t ih =>
      rw [List.length_cons, List.range_succ_eq_map]
      simp only [List.map_cons, List.map_map, List.getD_cons_zero]
      have hco : List.map ((fun i => g ((a :: t).getD i d)) ∘ Nat.succ) (List.range t.length) =
          List.map (fun i => g (t.getD i d)) (List.range t.length) := by
        apply List.map_congr_left
        intro i _
        simp [Function.comp, List.getD_cons_succ]
      rw [hco, ih]

/-- Mapping a position-only function over the position-tagged rows. -/
theorem withPos_map_fst {β : Type} (l : List (Option ℤ)) (g : ℕ → β) :
    (withPos l).map (fun pr => g pr.1) = (List.range l.length).map g := by
  unfold withPos
  rw [show (fun pr : ℕ × Option ℤ => g pr.1) = g ∘ Prod.fst from rfl, ← List.map_map]
  rw [List.map_fst_zip]
  simp

/-- Mapping the key over the position-tagged rows. -/
theorem withPos_map_snd (l : List (Option ℤ)) :
    (withPos l).map (fun pr => pr.2) = l := by
  unfold withPos
  rw [show (fun pr : ℕ × Option ℤ => pr.2) = Prod.snd from rfl]
  rw [List.map_snd_zip]
  simp

/-- A found column is one of the payload's columns. -/
theorem findCol_mem (p : List (String × List Raw)) (name : String) (v : List Raw)
    (h : findCol p name = some v) : (name, v) ∈ p := by
  induction p with
  | nil => simp [findCol] at h
  | cons c cs ih =>
      unfold findCol at h
      by_cases hc : c.1 = name
      · rw [if_pos hc] at h
        have : c = (name, v) := by
          cases c
          simp_all
        exact this ▸ List.mem_cons_self _ _
      · rw [if_neg hc] at h
        exact List.mem_cons_of_mem c (ih h)

/-- C2 counterexample: the Parser/Normalizer does not discard rows whose
timestamp fails to parse.  On `badTimePayload` (three rows, the second
timestamp unparseable) the claim would leave two rows, all with parsed
timestamps; the code instead keeps all three rows, coercing the bad
timestamp to a missing (NaT) index entry sorted after the parsed ones. -/
theorem claim_C2_counterexample :
    hourly_to_frame (.jsonDict (some badTimePayload)) =
      .ok ⟨.time true [some 0, some 86400, none],
           [("temperature_2m", Col.numeric [some 68, some 70, some 72])]⟩ ∧
    (none : Option ℤ) ∈ [some (0 : ℤ), some 86400, none] ∧
    ([some (0 : ℤ), some 86400, none].length ≠ 2) := by
  refine ⟨by decide, by decide, by decide⟩

/-- C2 amended: for every rectangular payload with a `time` column (and no
duplicate column names), the normalizer does not raise; it parses each
timestamp as UTC, keeps every row — rows with unparseable timestamps get a
missing (NaT) timestamp instead of being discarded — sorts ascending by
timestamp with missing timestamps last, and coerces every remaining column
to numeric with non-numeric tokens becoming missing values. -/
theorem claim_C2_keep_coerce_sort (c0 : String × List Raw) (rest : List (String × List Raw))
    (tc : List Raw)
    (hrect : allLen (c0 :: rest) c0.2.length = true)
    (htime : findCol (c0 :: rest) "time" = some tc)
    (_hnodup : (((c0 :: rest)).map Prod.fst).Nodup) :
    ∃ ts cols,
      hourly_to_frame (.jsonDict (some (c0 :: rest))) = .ok ⟨.time true ts, cols⟩ ∧
      ts.Perm (tc.map pdToDatetimeUTC) ∧
      ts.length = c0.2.length ∧
      List.Pairwise (fun a b => keyLT b a = false) ts ∧
      cols.map Prod.fst = ((c0 :: rest).filter (fun c => c.1 ≠ "time")).map Prod.fst ∧
      (∀ c ∈ (c0 :: rest).filter (fun c => c.1 ≠ "time"),
        ∃ vs, (c.1, Col.numeric vs) ∈ cols ∧ vs.Perm (c.2.map toNumericCell)) := by
  have htc_mem : ("time", tc) ∈ (c0 :: rest) := findCol_mem _ _ _ htime
  have htc_len : tc.length = c0.2.length := by
    have := List.all_eq_true.mp hrect ("time", tc) htc_mem
    simpa using this
  let times := tc.map pdToDatetimeUTC
  have htimes_len : times.length = c0.2.length := by simp [times, htc_len]
  let perm := sortRows (withPos times)
  have hperm : perm.Perm (withPos times) := sortRows_perm _
  refine ⟨perm.map (fun pr => pr.2),
          ((c0 :: rest).filter (fun c => c.1 ≠ "time")).map (fun c =>
            (c.1, Col.numeric (perm.map (fun pr => toNumericCell (c.2.getD pr.1 .rnull))))),
          ?_, ?_, ?_, ?_, ?_, ?_⟩
  · simp [hourly_to_frame, hrect, htime, perm, times]
  · exact (hperm.map _).trans (by rw [withPos_map_snd])
  · rw [List.length_map, hperm.length_eq]
    simp [withPos, htimes_len]
  · exact (sortRows_sorted _).map _ (fun a b hab => hab)
  · rw [List.map_map]
    rfl
  · intro c hc
    have hclen : c.2.length = c0.2.length := by
      have hcmem : c ∈ c0 :: rest := List.mem_of_mem_filter hc
      have := List.all_eq_true.mp hrect c hcmem
      simpa using this
    refine ⟨perm.map (fun pr => toNumericCell (c.2.getD pr.1 .rnull)),
            List.mem_map_of_mem _ hc, ?_⟩
    have h1 : (perm.map (fun pr => toNumericCell (c.2.getD pr.1 .rnull))).Perm
        ((withPos times).map (fun pr => toNumericCell (c.2.getD pr.1 .rnull))) :=
      hperm.map _
    have h2 : (withPos times).map (fun pr => toNumericCell (c.2.getD pr.1 .rnull)) =
        (List.range times.length).map (fun i => toNumericCell (c.2.getD i .rnull)) :=
      withPos_map_fst times (fun i => toNumericCell (c.2.getD i .rnull))
    have h3 : (List.range times.length).map (fun i => toNumericCell (c.2.getD i .rnull)) =
        c.2.map toNumericCell := by
      rw [htimes_len, ← hclen]
      exact range_getD_map c.2 toNumericCell .rnull
    rw [h2, h3] at h1
    exact h1

theorem claim_C2_witness :
    (allLen badTimePayload 3 = true ∧
     findCol badTimePayload "time" =
       some [Raw.rstr "1970-01-02T00:00", Raw.rstr "bad", Raw.rstr "1970-01-01T00:00"] ∧
     (badTimePayload.map Prod.fst).Nodup) ∧
    (∃ ts cols,
      hourly_to_frame (.jsonDict (some badTimePayload)) = .ok ⟨.time true ts, cols⟩ ∧
      ts.Perm ([Raw.rstr "1970-01-02T00:00", Raw.rstr "bad",
                Raw.rstr "1970-01-01T00:00"].map pdToDatetimeUTC) ∧
      ts.length = 3 ∧
      List.Pairwise (fun a b => keyLT b a = false) ts ∧
      cols.map Prod.fst = ((badTimePayload).filter (fun c => c.1 ≠ "time")).map Prod.fst ∧
      (∀ c ∈ (badTimePayload).filter (fun c => c.1 ≠ "time"),
        ∃ vs, (c.1, Col.numeric vs) ∈ cols ∧ vs.Perm (c.2.map toNumericCell))) :=
  ⟨⟨by decide, by decide, by decide⟩,
   claim_C2_keep_coerce_sort
     ("time", [Raw.rstr "1970-01-02T00:00", Raw.rstr "bad", Raw.rstr "1970-01-01T00:00"])
     [("temperature_2m", [Raw.rnum 70, Raw.rnum 72, Raw.rnum 68])]
     [Raw.rstr "1970-01-02T00:00", Raw.rstr "bad", Raw.rstr "1970-01-01T00:00"]
     (by decide) (by decide) (by decide)⟩

/- ## Cache round-trip lemmas (claim C3) -/

/-- Re-parsing a serialized time index succeeds cell by cell. -/
theorem parseTimeCells_serialize (aware : Bool) (ts : List (Option ℤ)) :
    parseTimeCells (ts.map (fun o => match o with
      | some t => Raw.rtime aware t | none => Raw.rnull)) =
      some (ts.map (fun o => match o with
        | some t => (some t, aware) | none => ((none : Option ℤ), false))) := by
  induction ts with
  | nil => rfl
  | cons o rest ih =>
      cases o with
      | none => simp [parseTimeCells, parseTimeCell, ih]
      | some t => simp [parseTimeCells, parseTimeCell, ih]

/-- The instants of a re-parsed serialized index are the original ones. -/
theorem timeCells_fst (aware : Bool) (ts : List (Option ℤ)) :
    (ts.map (fun o => match o with
      | some t => (some t, aware) | none => ((none : Option ℤ), false))).map Prod.fst = ts := by
  induction ts with
  | nil => rfl
  | cons o rest ih =>
      cases o with
      | none => simp [ih]
      | some t => simp [ih]

/-- A serialized numeric column reads back as itself. -/
theorem readCol_serialize_numeric (vs : List Cell) :
    readCol (serializeCol (Col.numeric vs)) = Col.numeric vs := by
  have h : rawNumericCells (vs.map serializeCell) = some vs := by
    induction vs with
    | nil => rfl
    | cons c cs ih =>
        cases c with
        | none => simp [serializeCell, rawNumericCells, rawNumericCell, ih]
        | some q => simp [serializeCell, rawNumericCells, rawNumericCell, ih]
  simp [serializeCol, readCol, h]

/-- C3: loading right after saving returns a non-empty normalized UTC series
unchanged (first part), and the loaded index is UTC-aware even when the
stored time column carries no offset annotation (second part). -/
theorem claim_C3_cache_roundtrip :
    (∀ (f : Frame) (ts : List (Option ℤ)) (lat lon : ℚ) (st : Store),
      f.idx = .time true ts → ts ≠ [] →
      (∀ c ∈ f.cols, ∃ vs, c.2 = Col.numeric vs) →
      load_cache lat lon (save_cache f lat lon st) = .ok f) ∧
    (∀ (lat lon : ℚ) (st : Store) (ts : List (Option ℤ)) (cols : List (String × List Raw)),
      storeGet st (cache_path lat lon) =
        some (.table (some "time") (ts.map (fun o => match o with
          | some t => Raw.rtime false t | none => Raw.rnull)) cols) →
      load_cache lat lon st =
        .ok ⟨.time true ts, cols.map (fun c => (c.1, readCol c.2))⟩) := by
  constructor
  · intro f ts lat lon st hidx hne hcols
    obtain ⟨idx, cols⟩ := f
    simp only [Frame.mk.injEq] at hidx ⊢
    obtain rfl : idx = FIndex.time true ts := hidx
    have hrows : numRows ⟨FIndex.time true ts, cols⟩ ≠ 0 := by
      simp [numRows, FIndex.len]
      exact hne
    have hnotblank : ¬ (numRows ⟨FIndex.time true ts, cols⟩ = 0 ∧ cols = []) := by
      intro h
      exact hrows h.1
    unfold save_cache load_cache
    have hget : storeGet ((cache_path lat lon, csvOfFrame ⟨FIndex.time true ts, cols⟩) ::
        List.filter (fun e => decide (e.1 ≠ cache_path lat lon)) st) (cache_path lat lon) =
        some (csvOfFrame ⟨FIndex.time true ts, cols⟩) := by
      simp [storeGet]
    rw [hget]
    unfold csvOfFrame
    rw [if_neg hnotblank]
    simp only [serializeIndex, if_true, parseTimeCells_serialize true ts, timeCells_fst]
    have hcolsmap : (cols.map (fun c => (c.1, serializeCol c.2))).map
        (fun c => (c.1, readCol c.2)) = cols := by
      rw [List.map_map]
      have : ∀ c ∈ cols, ((fun c => (c.1, readCol c.2)) ∘ fun c => (c.1, serializeCol c.2)) c
          = c := by
        intro c hc
        obtain ⟨vs, hvs⟩ := hcols c hc
        simp only [Function.comp_apply, hvs, readCol_serialize_numeric]
        rw [← hvs]
      rw [List.map_congr_left this]
      simp
    rw [List.map_map] at hcolsmap ⊢
    simp [hcolsmap]
  · intro lat lon st ts cols hgot
    simp only [load_cache, hgot, if_true]
    rw [parseTimeCells_serialize false ts]
    simp only [timeCells_fst]

theorem claim_C3_witness :
    (cachedFrame.idx = .time true [some 1756944000, some 1756947600] ∧
     storeGet [(cache_path gjLat gjLon,
        CSVFile.table (some "time") [Raw.rtime false 0] [("temperature_2m", [Raw.rnum 70])])]
        (cache_path gjLat gjLon) =
       some (CSVFile.table (some "time") [Raw.rtime false 0] [("temperature_2m", [Raw.rnum 70])])) ∧
    load_cache gjLat gjLon (save_cache cachedFrame gjLat gjLon []) = .ok cachedFrame ∧
    load_cache gjLat gjLon [(cache_path gjLat gjLon,
        CSVFile.table (some "time") [Raw.rtime false 0] [("temperature_2m", [Raw.rnum 70])])] =
      .ok ⟨.time true [some 0],
           [("temperature_2m", readCol [Raw.rnum 70])]⟩ :=
  ⟨⟨by decide, by decide⟩,
   claim_C3_cache_roundtrip.1 cachedFrame [some 1756944000, some 1756947600] gjLat gjLon []
     (by decide) (by decide)
     (fun c hc => by
       rcases List.mem_cons.mp hc with rfl | hc
       · exact ⟨_, rfl⟩
       · rcases List.mem_cons.mp hc with rfl | hc
         · exact ⟨_, rfl⟩
         · cases hc),
   claim_C3_cache_roundtrip.2 gjLat gjLon
     [(cache_path gjLat gjLon,
       CSVFile.table (some "time") [Raw.rtime false 0] [("temperature_2m", [Raw.rnum 70])])]
     [some 0] [("temperature_2m", [Raw.rnum 70])] (by decide)⟩

end WeatherMine
